import Mathlib

/-!
# Verification of the stock-market trend-analysis ETL pipeline

Shallow embedding of `src/stock_analysis.py`.

Modelling decisions:
* A pandas column is a `List (Option ℚ)`; `none` models `NaN`.  The spec
  licenses exact-arithmetic modelling ("floating-point accumulation order
  does not need to be bit-reproducible"), so `Close` values are rationals.
* `raw_data` (the multi-ticker frame produced by `yf.download`) is an
  association list `List (String × TickerFrame)`; `raw_data[ticker]`
  raising `KeyError` is modelled by `List.lookup` returning `none`, and a
  frame whose `Close` column is missing (the second possible `KeyError`,
  at `df['Close']`) by `TickerFrame.close = none`.
* `pandas.DataFrame.ffill` on a column is `ffill` below.
* `rolling(window=50).mean()` / `.std()`: at row `i` the window is the 50
  rows `i-49 .. i`; with fewer than 50 rows, or any `NaN` among them, the
  result is `NaN` (pandas default `min_periods = window`).  `.std()` uses
  `ddof = 1`, i.e. `sqrt(Σ(x-m)² / 49)` for a full 50-window.  To keep the
  embedding computable we carry the radicand: `rollingVar50` is the exact
  value under the square root, and the `Volatility` column is
  `Real.sqrt ∘ Rat.cast` of it (applied in theorem statements only; a
  column entry is `NaN` iff the corresponding variance entry is `none`,
  since the variance of a full window is a defined nonnegative rational).
* `df.dropna()` over the kept columns `[Ticker, Close, MA50, Volatility]`
  is `dropna` (the `Ticker` column is a string and never `NaN`).
* The orchestrator (`__main__`) is `runPipeline`, which records which
  stages executed in a `PipelineTrace`.
-/

/-- One ticker's sub-frame of the multi-index `yf.download` result.  Only the
`Close` column feeds the kept output columns, so only it is modelled; it is
`none` when the frame lacks a `Close` column (then `df['Close']` raises
`KeyError`). -/
structure TickerFrame where
  close : Option (List (Option ℚ))
  deriving DecidableEq, Repr

/-- The provider's response table, keyed by ticker: `raw_data` in the source.
`raw_data[ticker]` raising `KeyError` for an absent ticker is `lookup = none`. -/
abbrev RawSeriesTable := List (String × TickerFrame)

/-- One output row of the consolidated table.  `idx` is the (date-) index the
row keeps through `pd.concat`; `ma50` and `var` are the `MA50` column and the
radicand of the `Volatility` column (see the header comment). -/
structure FeaturedRow where
  ticker : String
  idx : ℕ
  close : Option ℚ
  ma50 : Option ℚ
  var : Option ℚ
  deriving DecidableEq, Repr

/-- Helper for `ffill`: `last` is the most recent non-missing value seen so
far (initially none).  Embeds the row-by-row behaviour of `df.ffill()` on one
column. -/
def ffillAux : Option ℚ → List (Option ℚ) → List (Option ℚ)
  | _, [] => []
  | last, none :: rest => last :: ffillAux last rest
  | _, some v :: rest => some v :: ffillAux (some v) rest

/-- `df.ffill()` on one column (source line 54): each `NaN` is replaced by the
most recent earlier non-`NaN` value; leading `NaN`s stay `NaN`. -/
def ffill (xs : List (Option ℚ)) : List (Option ℚ) :=
  ffillAux none xs

/-- The 50 window cells pandas inspects at row `i ≥ 49`: positions
`i-49 .. i`, out-of-range cells read as `none`. -/
def windowCells (xs : List (Option ℚ)) (i : ℕ) : List (Option ℚ) :=
  (List.range 50).map (fun j => xs.getD (i - 49 + j) none)

/-- Sequence a list of optional values: `some` of the list of values if none
is missing, else `none` (how pandas' `min_periods = window` makes any `NaN`
in the window, or a short window, yield `NaN`). -/
def seqOpt : List (Option ℚ) → Option (List ℚ)
  | [] => some []
  | none :: _ => none
  | some v :: rest => (seqOpt rest).map (fun l => v :: l)

/-- `df['Close'].rolling(window=50).mean()` at row `i` (source line 58):
`NaN` for the first 49 rows and whenever the 50-cell window contains a `NaN`;
otherwise the mean of the 50 values. -/
def rollingMean50 (xs : List (Option ℚ)) (i : ℕ) : Option ℚ :=
  if i < 49 then none
  else (seqOpt (windowCells xs i)).map (fun l => l.sum / 50)

/-- The radicand of `df['Close'].rolling(window=50).std()` at row `i`
(source line 62): pandas `std` uses `ddof = 1`, so over a full 50-window it
is `sqrt(Σ(x - m)² / 49)` with `m` the window mean; this definition is the
exact value under that square root, `none` exactly where the column is
`NaN`.  The column value itself is `(rollingVar50 xs i).map (Real.sqrt ∘ _)`
as used in the theorem statements. -/
def rollingVar50 (xs : List (Option ℚ)) (i : ℕ) : Option ℚ :=
  if i < 49 then none
  else (seqOpt (windowCells xs i)).map
    (fun l => (l.map (fun x => (x - l.sum / 50) ^ 2)).sum / 49)

/-- The per-ticker frame after steps 1–4 of `transform_data`: cleaned Close,
`MA50`, `Volatility` (as its radicand) and the `Ticker` tag, one row per
original row (source lines 54–69), before `dropna`. -/
def featuredFrame (t : String) (cleaned : List (Option ℚ)) : List FeaturedRow :=
  (List.range cleaned.length).map (fun i =>
    { ticker := t, idx := i, close := cleaned.getD i none,
      ma50 := rollingMean50 cleaned i, var := rollingVar50 cleaned i })

/-- A row survives `df.dropna()` iff none of its kept numeric columns is
`NaN`. -/
def rowComplete (r : FeaturedRow) : Bool :=
  r.close.isSome && r.ma50.isSome && r.var.isSome

/-- `df.dropna()` on the four kept columns (source line 72). -/
def dropna (rows : List FeaturedRow) : List FeaturedRow :=
  rows.filter rowComplete

/-- The body of `transform_data`'s per-ticker `try` block: `none` models the
caught `KeyError` (ticker absent from `raw_data`, or frame without a `Close`
column), `some rows` the frame appended to `processed_list`. -/
def processTicker (raw : RawSeriesTable) (t : String) : Option (List FeaturedRow) :=
  match raw.lookup t with
  | none => none
  | some frame =>
    match frame.close with
    | none => none
    | some rawClose => some (dropna (featuredFrame t (ffill rawClose)))

/-- The skip line printed when a ticker's lookup fails (source line 76). -/
def skip_message (t : String) : String :=
  "Integrity Check Failed: No data found for " ++ t ++ ". Skipping..."

/-- `transform_data` (source lines 42–85): iterate the requested universe in
order, concatenate the surviving per-ticker frames (`pd.concat`), and record
the skipped tickers.  Returns `(consolidated rows, skipped tickers)`; an
empty row list models the empty `DataFrame` returned when nothing survives. -/
def transform_data (tickers : List String) (raw : RawSeriesTable) :
    List FeaturedRow × List String :=
  match tickers with
  | [] => ([], [])
  | t :: rest =>
    let tail := transform_data rest raw
    match processTicker raw t with
    | none => (tail.1, t :: tail.2)
    | some rows => (rows ++ tail.1, tail.2)

/-- The fixed requested universe `TICKERS` (source lines 9–19). -/
def TICKERS : List String :=
  ["AAPL", "MSFT", "GOOGL", "AMZN", "TSLA", "META", "NVDA", "NFLX", "ADBE", "INTC",
   "AMD", "PYPL", "CRM", "CSCO", "PEP", "KO", "NKE", "DIS", "WMT", "V",
   "MA", "JPM", "BAC", "GS", "MS", "IBM", "ORCL", "UBER", "ABNB", "SQ",
   "RELIANCE.NS", "TCS.NS", "INFY.NS", "HDFCBANK.NS", "ICICIBANK.NS",
   "TATAMOTORS.NS", "TATASTEEL.NS", "WIPRO.NS", "SBIN.NS", "BHARTIARTL.NS",
   "ITC.NS", "LT.NS", "HCLTECH.NS", "MARUTI.NS", "SUNPHARMA.NS", "ULTRACEMCO.NS",
   "TITAN.NS", "BAJFINANCE.NS", "ASIANPAINT.NS", "POWERGRID.NS"]

/-- `extract_data` (source lines 29–39): the provider call either yields a
table (`fetch = some tbl`) or raises (`fetch = none`), in which case the
failure is logged ("Critical API Failure") and an empty frame is returned.
Result: `(raw table, whether the failure message was printed)`. -/
def extract_data (fetch : Option RawSeriesTable) : RawSeriesTable × Bool :=
  match fetch with
  | some tbl => (tbl, false)
  | none => ([], true)

/-- Which stages of the `__main__` block executed on a run. -/
structure PipelineTrace where
  apiFailureLogged : Bool
  transformRan : Bool
  persisted : Bool
  charted : Bool
  completed : Bool
  deriving DecidableEq, Repr

/-- The `__main__` orchestration (source lines 127–138): extract; if the raw
frame is non-empty, transform; if the consolidated frame is non-empty,
persist to SQLite and render the chart; always print the terminal
"PIPELINE COMPLETED" message (`completed`).  Returns the trace and the
consolidated rows. -/
def runPipeline (tickers : List String) (fetch : Option RawSeriesTable) :
    PipelineTrace × List FeaturedRow :=
  let ext := extract_data fetch
  if ext.1.isEmpty then
    ({ apiFailureLogged := ext.2, transformRan := false, persisted := false,
       charted := false, completed := true }, [])
  else
    let res := transform_data tickers ext.1
    if res.1.isEmpty then
      ({ apiFailureLogged := ext.2, transformRan := true, persisted := false,
         charted := false, completed := true }, res.1)
    else
      ({ apiFailureLogged := ext.2, transformRan := true, persisted := true,
         charted := true, completed := true }, res.1)

/-!
## Spec-side definitions

These follow the specification's words, to be compared against the
source-side definitions above.
-/

/-- Spec-side (glossary, "Forward-fill"): the most recent prior non-missing
observation in a prefix of the raw column — `none` when no observation has
occurred yet. -/
def lastObserved (xs : List (Option ℚ)) : Option ℚ :=
  xs.foldl (fun acc v => match v with | some x => some x | none => acc) none

/-- Number of defined (non-`NaN`) entries of a column — the spec's "cleaned
observations". -/
def countSome (xs : List (Option ℚ)) : ℕ :=
  xs.countP (fun v => v.isSome)

/-- Spec-side: the values `Close[i-49..i]` of a cleaned column (definedness
stripped; under the availability rule all 50 are defined). -/
def specWindow (cleaned : List (Option ℚ)) (i : ℕ) : List ℚ :=
  ((cleaned.drop (i - 49)).take 50).filterMap id

/-- Spec-side: the arithmetic mean of a list of values. -/
def specMean (l : List ℚ) : ℚ :=
  l.sum / l.length

/-- Spec-side (glossary, "Sample standard deviation"): the deviation
estimator with an `N-1` denominator — this is its radicand; the sample
standard deviation itself is its real square root, written out in the
theorem statements. -/
def specSampleVar (l : List ℚ) : ℚ :=
  (l.map (fun x => (x - specMean l) ^ 2)).sum / (l.length - 1 : ℕ)

/-!
## Basic lemmas about the embedded operations
-/

lemma ffillAux_length (last : Option ℚ) (xs : List (Option ℚ)) :
    (ffillAux last xs).length = xs.length := by
  induction xs generalizing last with
  | nil => rfl
  | cons v rest ih =>
    cases v with
    | none => simp [ffillAux, ih]
    | some x => simp [ffillAux, ih]

lemma ffill_length (xs : List (Option ℚ)) : (ffill xs).length = xs.length :=
  ffillAux_length none xs

/-- The fold step of `lastObserved`. -/
def obsStep (acc v : Option ℚ) : Option ℚ :=
  match v with
  | some x => some x
  | none => acc

lemma lastObserved_eq_foldl (xs : List (Option ℚ)) :
    lastObserved xs = xs.foldl obsStep none := rfl

lemma ffillAux_getD (xs : List (Option ℚ)) (last : Option ℚ) (i : ℕ)
    (hi : i < xs.length) :
    (ffillAux last xs).getD i none = (xs.take (i + 1)).foldl obsStep last := by
  induction xs generalizing last i with
  | nil => simp at hi
  | cons v rest ih =>
    cases i with
    | zero =>
      cases v with
      | none => simp [ffillAux, obsStep]
      | some x => simp [ffillAux, obsStep]
    | succ i =>
      have hi' : i < rest.length := by simpa using hi
      cases v with
      | none =>
        simpa [ffillAux, List.take_succ_cons, obsStep] using ih last i hi'
      | some x =>
        simpa [ffillAux, List.take_succ_cons, obsStep] using ih (some x) i hi'

/-- Row-level characterization of the Cleaner: after `ffill`, entry `i` is
exactly the most recent non-missing raw observation at or before `i`. -/
lemma ffill_getD (xs : List (Option ℚ)) (i : ℕ) (hi : i < xs.length) :
    (ffill xs).getD i none = lastObserved (xs.take (i + 1)) :=
  ffillAux_getD xs none i hi

lemma foldl_obsStep_isSome (l : List (Option ℚ)) (a : Option ℚ)
    (ha : a.isSome) : (l.foldl obsStep a).isSome := by
  induction l generalizing a with
  | nil => exact ha
  | cons v rest ih =>
    cases v with
    | none => exact ih a ha
    | some x => exact ih (some x) (by simp [obsStep])

lemma foldl_obsStep_none_iff (l : List (Option ℚ)) (a : Option ℚ) :
    l.foldl obsStep a = none ↔ a = none ∧ ∀ v ∈ l, v = none := by
  induction l generalizing a with
  | nil => simp
  | cons v rest ih =>
    cases v with
    | none => simp [obsStep, ih]
    | some x =>
      simp only [List.foldl_cons, obsStep, ih]
      constructor
      · rintro ⟨h, _⟩; exact absurd h (by simp)
      · rintro ⟨-, h⟩; exact absurd (h (some x) (by simp)) (by simp)

/-- Definedness is upward-closed along a forward-filled column: once a value
has been observed, every later entry is defined. -/
lemma ffill_isSome_mono (xs : List (Option ℚ)) (i j : ℕ) (hij : i ≤ j)
    (hj : j < xs.length) (hi : ((ffill xs).getD i none).isSome) :
    ((ffill xs).getD j none).isSome := by
  have hi' : i < xs.length := lt_of_le_of_lt hij hj
  rw [ffill_getD xs i hi'] at hi
  rw [ffill_getD xs j hj]
  have hsplit : xs.take (j + 1) = xs.take (i + 1) ++ ((xs.drop (i + 1)).take (j - i)) := by
    have : j + 1 = (i + 1) + (j - i) := by omega
    rw [this, List.take_add]
  rw [lastObserved_eq_foldl] at hi ⊢
  rw [hsplit, List.foldl_append]
  exact foldl_obsStep_isSome _ _ hi

lemma seqOpt_map_some (l : List ℚ) : seqOpt (l.map some) = some l := by
  induction l with
  | nil => rfl
  | cons x rest ih => simp [seqOpt, ih]

lemma seqOpt_eq_some (w : List (Option ℚ)) (l : List ℚ)
    (h : seqOpt w = some l) : w = l.map some := by
  induction w generalizing l with
  | nil =>
    simp only [seqOpt] at h
    injection h with h
    subst h
    rfl
  | cons v rest ih =>
    cases v with
    | none => simp [seqOpt] at h
    | some x =>
      simp only [seqOpt] at h
      cases hr : seqOpt rest with
      | none => rw [hr] at h; simp at h
      | some l'' =>
        rw [hr] at h
        simp only [Option.map_some'] at h
        injection h with h
        subst h
        simp [ih l'' hr]

lemma seqOpt_eq_some_iff (w : List (Option ℚ)) (l : List ℚ) :
    seqOpt w = some l ↔ w = l.map some :=
  ⟨seqOpt_eq_some w l, fun h => h ▸ seqOpt_map_some l⟩

lemma seqOpt_eq_none_iff (w : List (Option ℚ)) :
    seqOpt w = none ↔ ∃ v ∈ w, v = none := by
  induction w with
  | nil => simp [seqOpt]
  | cons v rest ih =>
    cases v with
    | none => simp [seqOpt]
    | some x => simp [seqOpt, Option.map_eq_none', ih]

/-- For an in-range row `i ≥ 49` the 50 window cells are the sublist
`xs[i-49 .. i]`. -/
lemma windowCells_eq (xs : List (Option ℚ)) (i : ℕ) (h49 : 49 ≤ i)
    (hi : i < xs.length) :
    windowCells xs i = (xs.drop (i - 49)).take 50 := by
  have hlen : ((xs.drop (i - 49)).take 50).length = 50 := by
    simp only [List.length_take, List.length_drop]
    omega
  apply List.ext_getElem
  · simp [windowCells, hlen]
  · intro j h1 h2
    have hj : j < 50 := by simpa [windowCells] using h1
    have hidx : i - 49 + j < xs.length := by omega
    simp only [windowCells, List.getElem_map, List.getElem_range]
    rw [List.getElem_take, List.getElem_drop]
    exact List.getD_eq_getElem xs none hidx

/-- If at least 50 cleaned observations exist up to and including row `i`,
then `i ≥ 49` and the whole 50-row window ending at `i` is defined. -/
lemma avail_of_countSome (xs : List (Option ℚ)) (i : ℕ)
    (hi : i < (ffill xs).length)
    (h : 50 ≤ countSome ((ffill xs).take (i + 1))) :
    49 ≤ i ∧ ∀ j, i - 49 ≤ j → j ≤ i → (((ffill xs).getD j none)).isSome := by
  set ys := ffill xs with hys
  have hlenys : ys.length = xs.length := ffill_length xs
  have hcount_le : countSome (ys.take (i + 1)) ≤ i + 1 := by
    calc countSome (ys.take (i + 1)) ≤ (ys.take (i + 1)).length :=
          List.countP_le_length _
      _ ≤ i + 1 := by simp [List.length_take]
  have h49 : 49 ≤ i := by omega
  refine ⟨h49, ?_⟩
  by_contra hbad
  push_neg at hbad
  obtain ⟨j0, hj0lo, hj0hi, hj0none⟩ := hbad
  have hj0none' : ys.getD j0 none = none := by
    cases hv : ys.getD j0 none with
    | none => rfl
    | some x => rw [hv] at hj0none; simp at hj0none
  have hallnone : ∀ j, j ≤ j0 → ys.getD j none = none := by
    intro j hj
    cases hv : ys.getD j none with
    | none => rfl
    | some x =>
      have : (ys.getD j0 none).isSome :=
        ffill_isSome_mono xs j j0 hj (by omega) (by rw [hv]; rfl)
      rw [hj0none'] at this
      simp at this
  have hsplit : ys.take (i + 1) =
      ys.take (j0 + 1) ++ (ys.drop (j0 + 1)).take (i - j0) := by
    have : i + 1 = (j0 + 1) + (i - j0) := by omega
    rw [this, List.take_add]
  have hzero : countSome (ys.take (j0 + 1)) = 0 := by
    rw [countSome, List.countP_eq_zero]
    intro a ha
    obtain ⟨k, hk, hak⟩ := List.mem_iff_getElem.mp ha
    have hk' : k < j0 + 1 := by
      have := hk
      simp only [List.length_take] at this
      omega
    have hkys : k < ys.length := by omega
    have : a = ys.getD k none := by
      rw [← hak, List.getElem_take, List.getD_eq_getElem ys none hkys]
    rw [this, hallnone k (by omega)]
    simp
  have hlen2 : countSome ((ys.drop (j0 + 1)).take (i - j0)) ≤ i - j0 := by
    calc countSome ((ys.drop (j0 + 1)).take (i - j0)) ≤
          ((ys.drop (j0 + 1)).take (i - j0)).length := List.countP_le_length _
      _ ≤ i - j0 := by simp [List.length_take]
  have : countSome (ys.take (i + 1)) ≤ i - j0 := by
    rw [hsplit, countSome, List.countP_append, ← countSome, ← countSome, hzero]
    omega
  omega

/-- Conversely, a fully defined 50-row window ending at `i` forces at least
50 cleaned observations up to and including `i`. -/
lemma countSome_of_avail (xs : List (Option ℚ)) (i : ℕ)
    (hi : i < (ffill xs).length) (h49 : 49 ≤ i)
    (hall : ∀ v ∈ windowCells (ffill xs) i, v.isSome) :
    50 ≤ countSome ((ffill xs).take (i + 1)) := by
  set ys := ffill xs with hys
  have hwin : windowCells ys i = (ys.drop (i - 49)).take 50 :=
    windowCells_eq ys i h49 hi
  have hlenw : ((ys.drop (i - 49)).take 50).length = 50 := by
    simp only [List.length_take, List.length_drop]
    omega
  have hsplit : ys.take (i + 1) = ys.take (i - 49) ++ (ys.drop (i - 49)).take 50 := by
    have : i + 1 = (i - 49) + 50 := by omega
    rw [this, List.take_add]
  have hfull : countSome ((ys.drop (i - 49)).take 50) = 50 := by
    have h1 : List.countP (fun v => Option.isSome v) ((ys.drop (i - 49)).take 50) =
        ((ys.drop (i - 49)).take 50).length :=
      List.countP_eq_length.mpr (fun a ha => hall a (by rw [hwin]; exact ha))
    rw [countSome, h1, hlenw]
  rw [hsplit, countSome, List.countP_append, ← countSome, ← countSome, hfull]
  omega

/-- With ≥ 50 cleaned observations up to `i`, the 50-cell window sequences to
exactly the spec's window of Close values `Close[i-49..i]`. -/
lemma window_some_of_countSome (xs : List (Option ℚ)) (i : ℕ)
    (hi : i < (ffill xs).length)
    (h : 50 ≤ countSome ((ffill xs).take (i + 1))) :
    49 ≤ i ∧ ∃ l : List ℚ, seqOpt (windowCells (ffill xs) i) = some l ∧
      l.length = 50 ∧ l = specWindow (ffill xs) i := by
  obtain ⟨h49, hall⟩ := avail_of_countSome xs i hi h
  have hallw : ∀ v ∈ windowCells (ffill xs) i, v.isSome := by
    intro v hv
    simp only [windowCells, List.mem_map, List.mem_range] at hv
    obtain ⟨j, hj, hjv⟩ := hv
    rw [← hjv]
    exact hall (i - 49 + j) (by omega) (by omega)
  have hne : seqOpt (windowCells (ffill xs) i) ≠ none := by
    intro hn
    obtain ⟨v, hv, hvn⟩ := (seqOpt_eq_none_iff _).mp hn
    have := hallw v hv
    rw [hvn] at this
    simp at this
  obtain ⟨l, hl⟩ := Option.ne_none_iff_exists'.mp hne
  have hmap : windowCells (ffill xs) i = l.map some := seqOpt_eq_some _ l hl
  have hlen : l.length = 50 := by
    have h1 : (windowCells (ffill xs) i).length = 50 := by simp [windowCells]
    rw [hmap] at h1
    simpa using h1
  refine ⟨h49, l, hl, hlen, ?_⟩
  rw [specWindow, ← windowCells_eq (ffill xs) i h49 hi, hmap]
  rw [List.filterMap_map]
  simp

/-- `MA50` under the availability rule: the source's rolling mean equals the
spec's arithmetic mean of `Close[i-49..i]`. -/
lemma rollingMean50_avail (xs : List (Option ℚ)) (i : ℕ)
    (hi : i < (ffill xs).length)
    (h : 50 ≤ countSome ((ffill xs).take (i + 1))) :
    rollingMean50 (ffill xs) i = some (specMean (specWindow (ffill xs) i)) := by
  obtain ⟨h49, l, hseq, hlen, hlw⟩ := window_some_of_countSome xs i hi h
  rw [rollingMean50, if_neg (by omega), hseq, Option.map_some']
  congr 1
  rw [← hlw, specMean, hlen]
  norm_num

/-- `Volatility` radicand under the availability rule: the source's rolling
variance equals the spec's sample variance (denominator `N-1 = 49`) of the
same window. -/
lemma rollingVar50_avail (xs : List (Option ℚ)) (i : ℕ)
    (hi : i < (ffill xs).length)
    (h : 50 ≤ countSome ((ffill xs).take (i + 1))) :
    rollingVar50 (ffill xs) i = some (specSampleVar (specWindow (ffill xs) i)) := by
  obtain ⟨h49, l, hseq, hlen, hlw⟩ := window_some_of_countSome xs i hi h
  rw [rollingVar50, if_neg (by omega), hseq, Option.map_some']
  congr 1
  rw [← hlw, specSampleVar, specMean, hlen]
  norm_num

/-- With fewer than 50 cleaned observations up to `i`, `MA50[i]` is `NaN`. -/
lemma rollingMean50_unavail (xs : List (Option ℚ)) (i : ℕ)
    (hi : i < (ffill xs).length)
    (h : countSome ((ffill xs).take (i + 1)) < 50) :
    rollingMean50 (ffill xs) i = none := by
  by_cases h49 : i < 49
  · rw [rollingMean50, if_pos h49]
  · push_neg at h49
    have hnone : seqOpt (windowCells (ffill xs) i) = none := by
      by_contra hc
      obtain ⟨l, hl⟩ := Option.ne_none_iff_exists'.mp hc
      have hmap : windowCells (ffill xs) i = l.map some := seqOpt_eq_some _ l hl
      have hall : ∀ v ∈ windowCells (ffill xs) i, v.isSome := by
        intro v hv
        rw [hmap] at hv
        obtain ⟨x, -, hx⟩ := List.mem_map.mp hv
        rw [← hx]
        rfl
      exact absurd (countSome_of_avail xs i hi h49 hall) (by omega)
    rw [rollingMean50, if_neg (by omega), hnone, Option.map_none']

/-- With fewer than 50 cleaned observations up to `i`, `Volatility[i]` is
`NaN`. -/
lemma rollingVar50_unavail (xs : List (Option ℚ)) (i : ℕ)
    (hi : i < (ffill xs).length)
    (h : countSome ((ffill xs).take (i + 1)) < 50) :
    rollingVar50 (ffill xs) i = none := by
  by_cases h49 : i < 49
  · rw [rollingVar50, if_pos h49]
  · push_neg at h49
    have hnone : seqOpt (windowCells (ffill xs) i) = none := by
      by_contra hc
      obtain ⟨l, hl⟩ := Option.ne_none_iff_exists'.mp hc
      have hmap : windowCells (ffill xs) i = l.map some := seqOpt_eq_some _ l hl
      have hall : ∀ v ∈ windowCells (ffill xs) i, v.isSome := by
        intro v hv
        rw [hmap] at hv
        obtain ⟨x, -, hx⟩ := List.mem_map.mp hv
        rw [← hx]
        rfl
      exact absurd (countSome_of_avail xs i hi h49 hall) (by omega)
    rw [rollingVar50, if_neg (by omega), hnone, Option.map_none']

/-- Shape of a row of the pre-`dropna` per-ticker frame. -/
lemma mem_featuredFrame (t : String) (c : List (Option ℚ)) (r : FeaturedRow)
    (hr : r ∈ featuredFrame t c) :
    r.ticker = t ∧ r.idx < c.length ∧ r.close = c.getD r.idx none ∧
      r.ma50 = rollingMean50 c r.idx ∧ r.var = rollingVar50 c r.idx := by
  simp only [featuredFrame, List.mem_map, List.mem_range] at hr
  obtain ⟨i, hi, hir⟩ := hr
  subst hir
  exact ⟨rfl, hi, rfl, rfl, rfl⟩

lemma mem_dropna (rows : List FeaturedRow) (r : FeaturedRow) :
    r ∈ dropna rows ↔ r ∈ rows ∧ rowComplete r := by
  simp [dropna, List.mem_filter]

/-- An index whose `MA50` (resp. `Volatility`) is `NaN` yields no surviving
row. -/
lemma not_mem_dropna_of_ma50_none (t : String) (c : List (Option ℚ)) (i : ℕ)
    (hnone : rollingMean50 c i = none) (r : FeaturedRow)
    (hr : r ∈ dropna (featuredFrame t c)) : r.idx ≠ i := by
  intro hidx
  obtain ⟨hmem, hcomp⟩ := (mem_dropna _ r).mp hr
  obtain ⟨-, -, -, hma, -⟩ := mem_featuredFrame t c r hmem
  rw [rowComplete] at hcomp
  have : r.ma50.isSome := by
    rcases Bool.and_eq_true_iff.mp hcomp with ⟨h1, -⟩
    exact (Bool.and_eq_true_iff.mp h1).2
  rw [hma, hidx, hnone] at this
  simp at this

/-- The consolidated rows are the in-order concatenation of the surviving
per-ticker frames. -/
lemma transform_data_rows (tickers : List String) (raw : RawSeriesTable) :
    (transform_data tickers raw).1 =
      tickers.flatMap (fun t => (processTicker raw t).getD []) := by
  induction tickers with
  | nil => rfl
  | cons t rest ih =>
    rw [transform_data]
    cases hp : processTicker raw t with
    | none => simp [hp, ih]
    | some rows => simp [hp, ih]

/-- The skip log is exactly the requested tickers whose lookup failed, in
request order. -/
lemma transform_data_skips (tickers : List String) (raw : RawSeriesTable) :
    (transform_data tickers raw).2 =
      tickers.filter (fun t => (processTicker raw t).isNone) := by
  induction tickers with
  | nil => rfl
  | cons t rest ih =>
    rw [transform_data]
    cases hp : processTicker raw t with
    | none => simp [hp, ih, List.filter_cons]
    | some rows => simp [hp, ih, List.filter_cons]

/-- Every row a ticker contributes is tagged with that ticker and survived
`dropna`. -/
lemma processTicker_rows (raw : RawSeriesTable) (t : String)
    (rows : List FeaturedRow) (hp : processTicker raw t = some rows)
    (r : FeaturedRow) (hr : r ∈ rows) : r.ticker = t ∧ rowComplete r := by
  cases hl : raw.lookup t with
  | none => simp [processTicker, hl] at hp
  | some frame =>
    cases hc : frame.close with
    | none => simp [processTicker, hl, hc] at hp
    | some rawClose =>
      simp only [processTicker, hl, hc, Option.some.injEq] at hp
      subst hp
      obtain ⟨hmem, hcomp⟩ := (mem_dropna _ r).mp hr
      exact ⟨(mem_featuredFrame _ _ r hmem).1, hcomp⟩

/-- Membership in the consolidated rows, ticker-wise. -/
lemma mem_transform_data (tickers : List String) (raw : RawSeriesTable)
    (r : FeaturedRow) :
    r ∈ (transform_data tickers raw).1 ↔
      ∃ t ∈ tickers, ∃ rows, processTicker raw t = some rows ∧ r ∈ rows := by
  rw [transform_data_rows]
  simp only [List.mem_flatMap]
  constructor
  · rintro ⟨t, ht, hr⟩
    cases hp : processTicker raw t with
    | none => rw [hp] at hr; simp at hr
    | some rows =>
      rw [hp] at hr
      exact ⟨t, ht, rows, hp, by simpa using hr⟩
  · rintro ⟨t, ht, rows, hp, hr⟩
    exact ⟨t, ht, by rw [hp]; simpa using hr⟩

lemma ffillAux_all_some (xs : List (Option ℚ)) (last : Option ℚ)
    (h : ∀ v ∈ xs, v.isSome) : ffillAux last xs = xs := by
  induction xs generalizing last with
  | nil => rfl
  | cons v rest ih =>
    cases v with
    | none =>
      have := h none (by simp)
      simp at this
    | some x =>
      rw [ffillAux, ih (some x) (fun v hv => h v (by simp [hv]))]

/-- The Cleaner is the identity on a gap-free column. -/
lemma ffill_all_some (xs : List (Option ℚ)) (h : ∀ v ∈ xs, v.isSome) :
    ffill xs = xs :=
  ffillAux_all_some xs none h

/-- An index whose cleaned Close is still `NaN` (a leading gap) yields no
surviving row. -/
lemma not_mem_dropna_of_close_none (t : String) (c : List (Option ℚ)) (i : ℕ)
    (hnone : c.getD i none = none) (r : FeaturedRow)
    (hr : r ∈ dropna (featuredFrame t c)) : r.idx ≠ i := by
  intro hidx
  obtain ⟨hmem, hcomp⟩ := (mem_dropna _ r).mp hr
  obtain ⟨-, -, hclose, -, -⟩ := mem_featuredFrame t c r hmem
  rw [rowComplete] at hcomp
  have : r.close.isSome := by
    rcases Bool.and_eq_true_iff.mp hcomp with ⟨h1, -⟩
    exact (Bool.and_eq_true_iff.mp h1).1
  rw [hclose, hidx, hnone] at this
  simp at this

/-- An index whose `Volatility` is `NaN` yields no surviving row. -/
lemma not_mem_dropna_of_var_none (t : String) (c : List (Option ℚ)) (i : ℕ)
    (hnone : rollingVar50 c i = none) (r : FeaturedRow)
    (hr : r ∈ dropna (featuredFrame t c)) : r.idx ≠ i := by
  intro hidx
  obtain ⟨hmem, hcomp⟩ := (mem_dropna _ r).mp hr
  obtain ⟨-, -, -, -, hvar⟩ := mem_featuredFrame t c r hmem
  rw [rowComplete] at hcomp
  have : r.var.isSome := (Bool.and_eq_true_iff.mp hcomp).2
  rw [hvar, hidx, hnone] at this
  simp at this

/-- A pre-`dropna` row survives iff its index satisfies the 50-observation
availability rule. -/
lemma rowComplete_featured (xs : List (Option ℚ)) (t : String) (i : ℕ)
    (hi : i < (ffill xs).length) :
    (rowComplete { ticker := t, idx := i, close := (ffill xs).getD i none,
                   ma50 := rollingMean50 (ffill xs) i,
                   var := rollingVar50 (ffill xs) i } = true) ↔
      50 ≤ countSome ((ffill xs).take (i + 1)) := by
  rw [rowComplete]
  simp only [Bool.and_eq_true]
  constructor
  · rintro ⟨⟨-, hma⟩, -⟩
    by_contra hc
    push_neg at hc
    rw [rollingMean50_unavail xs i hi hc] at hma
    simp at hma
  · intro h
    have hma := rollingMean50_avail xs i hi h
    have hva := rollingVar50_avail xs i hi h
    obtain ⟨h49, hall⟩ := avail_of_countSome xs i hi h
    have hclose : (((ffill xs).getD i none)).isSome := hall i (by omega) (le_refl i)
    exact ⟨⟨by simpa using hclose, by rw [hma]; rfl⟩, by rw [hva]; rfl⟩

/-- A series with exactly 49 usable observations contributes zero rows. -/
lemma dropna_featured_of_49 (t : String) (xs : List (Option ℚ))
    (h : countSome (ffill xs) = 49) :
    dropna (featuredFrame t (ffill xs)) = [] := by
  rw [List.eq_nil_iff_forall_not_mem]
  intro r hr
  obtain ⟨hmem, hcomp⟩ := (mem_dropna _ r).mp hr
  obtain ⟨-, hidx, -, hma, -⟩ := mem_featuredFrame t _ r hmem
  have h50 : 50 ≤ countSome ((ffill xs).take (r.idx + 1)) := by
    by_contra hc
    push_neg at hc
    have hnone := rollingMean50_unavail xs r.idx hidx hc
    rw [rowComplete] at hcomp
    simp only [Bool.and_eq_true] at hcomp
    obtain ⟨⟨-, hma'⟩, -⟩ := hcomp
    rw [hma, hnone] at hma'
    simp at hma'
  have hle : countSome ((ffill xs).take (r.idx + 1)) ≤ countSome (ffill xs) :=
    List.Sublist.countP_le _ (List.take_sublist _ _)
  omega

/-- A series with exactly 50 usable observations contributes exactly one
row. -/
lemma dropna_featured_of_50 (t : String) (xs : List (Option ℚ))
    (h : countSome (ffill xs) = 50) :
    (dropna (featuredFrame t (ffill xs))).length = 1 := by
  set ys := ffill xs with hys
  have hlenxs : ys.length = xs.length := ffill_length xs
  have hn : 50 ≤ ys.length := by
    calc 50 = countSome ys := h.symm
      _ ≤ ys.length := List.countP_le_length _
  have hlast : ((ys.getD (ys.length - 1) none)).isSome := by
    by_contra hc
    have hallnone : ∀ j, j < ys.length → ys.getD j none = none := by
      intro j hj
      cases hv : ys.getD j none with
      | none => rfl
      | some x =>
        exact absurd (ffill_isSome_mono xs j (ys.length - 1) (by omega)
          (by omega) (by rw [hv]; rfl)) hc
    have hzero : countSome ys = 0 := by
      rw [countSome, List.countP_eq_zero]
      intro a ha
      obtain ⟨k, hk, hak⟩ := List.mem_iff_getElem.mp ha
      have : a = ys.getD k none := by
        rw [← hak, List.getD_eq_getElem ys none hk]
      rw [this, hallnone k hk]
      simp
    omega
  have hpred : ∀ i, i < ys.length →
      (50 ≤ countSome (ys.take (i + 1)) ↔ i = ys.length - 1) := by
    intro i hi
    constructor
    · intro hc
      by_contra hne
      have hilt : i + 1 < ys.length := by omega
      have hdrop_pos : 0 < countSome (ys.drop (i + 1)) := by
        rw [countSome, List.countP_pos_iff]
        have hlt : ys.length - 1 < ys.length := by omega
        refine ⟨ys.getD (ys.length - 1) none, ?_, by simpa using hlast⟩
        have hidx2 : ys.length - 1 - (i + 1) < (ys.drop (i + 1)).length := by
          rw [List.length_drop]
          omega
        rw [List.getD_eq_getElem ys none hlt]
        refine List.mem_iff_getElem.mpr ⟨ys.length - 1 - (i + 1), hidx2, ?_⟩
        rw [List.getElem_drop]
        congr 1
        omega
      have hsum : countSome ys =
          countSome (ys.take (i + 1)) + countSome (ys.drop (i + 1)) := by
        conv_lhs => rw [← List.take_append_drop (i + 1) ys]
        rw [countSome, List.countP_append]
        rfl
      omega
    · intro hi1
      subst hi1
      have htake : ys.take (ys.length - 1 + 1) = ys := by
        have hsucc : ys.length - 1 + 1 = ys.length := by omega
        rw [hsucc, List.take_length]
      rw [htake]
      omega
  rw [dropna, featuredFrame, ← List.countP_eq_length_filter, List.countP_map]
  have hsplit : ys.length = (ys.length - 1) + 1 := by omega
  rw [hsplit, List.range_succ, List.countP_append, List.countP_singleton]
  have hlastrow : (rowComplete ∘ fun i =>
      ({ ticker := t, idx := i, close := ys.getD i none,
         ma50 := rollingMean50 ys i,
         var := rollingVar50 ys i } : FeaturedRow)) (ys.length - 1) = true := by
    simp only [Function.comp]
    rw [hys]
    exact (rowComplete_featured xs t (ys.length - 1) (by rw [← hys]; omega)).mpr
      ((hpred (ys.length - 1) (by omega)).mpr rfl)
  have hrest : List.countP (rowComplete ∘ fun i =>
      ({ ticker := t, idx := i, close := ys.getD i none,
         ma50 := rollingMean50 ys i,
         var := rollingVar50 ys i } : FeaturedRow)) (List.range (ys.length - 1)) = 0 := by
    rw [List.countP_eq_zero]
    intro i hi
    rw [List.mem_range] at hi
    simp only [Function.comp]
    rw [hys]
    intro hcontra
    have h50 := (rowComplete_featured xs t i (by rw [← hys]; omega)).mp hcontra
    have := (hpred i (by omega)).mp (by rw [hys]; exact h50)
    omega
  rw [hlastrow] at *
  rw [hrest]
  simp

/-!
## Claim theorems
-/

/-- **C1**: for every cleaned ticker series and every index `i`, `MA50[i]`
equals the arithmetic mean of the 50 Close values `Close[i-49..i]` whenever
at least 50 cleaned observations up to and including `i` exist; with fewer
such observations `MA50[i]` is undefined and the corresponding row is
excluded from the output. -/
theorem c1_ma50_windowed_mean (t : String) (xs : List (Option ℚ)) (i : ℕ)
    (hi : i < (ffill xs).length) :
    (50 ≤ countSome ((ffill xs).take (i + 1)) →
      rollingMean50 (ffill xs) i = some (specMean (specWindow (ffill xs) i))) ∧
    (countSome ((ffill xs).take (i + 1)) < 50 →
      rollingMean50 (ffill xs) i = none ∧
        ∀ r ∈ dropna (featuredFrame t (ffill xs)), r.idx ≠ i) :=
  ⟨rollingMean50_avail xs i hi,
   fun h => ⟨rollingMean50_unavail xs i hi h,
     not_mem_dropna_of_ma50_none t (ffill xs) i (rollingMean50_unavail xs i hi h)⟩⟩

/-- Witness for C1 on the spec's synthetic 60-point linear series: index 49
meets the availability rule, index 10 does not. -/
theorem c1_ma50_windowed_mean_witness :
    (49 < (ffill ((List.range 60).map (fun n => some (n : ℚ)))).length ∧
      rollingMean50 (ffill ((List.range 60).map (fun n => some (n : ℚ)))) 49 =
        some (specMean (specWindow (ffill ((List.range 60).map (fun n => some (n : ℚ)))) 49))) ∧
    rollingMean50 (ffill ((List.range 60).map (fun n => some (n : ℚ)))) 10 = none :=
  ⟨⟨by decide, (c1_ma50_windowed_mean "AAPL" _ 49 (by decide)).1 (by decide)⟩,
   ((c1_ma50_windowed_mean "AAPL" _ 10 (by decide)).2 (by decide)).1⟩

/-- **C2**: under the same availability rule, the `Volatility` column (the
real square root of the carried radicand) equals the sample standard
deviation — `N-1 = 49` denominator — of the same 50-value window used for
`MA50`; otherwise it is undefined and the row is excluded. -/
theorem c2_volatility_sample_std (t : String) (xs : List (Option ℚ)) (i : ℕ)
    (hi : i < (ffill xs).length) :
    (50 ≤ countSome ((ffill xs).take (i + 1)) →
      (rollingVar50 (ffill xs) i).map (fun q : ℚ => Real.sqrt (q : ℝ)) =
        some (Real.sqrt ((specSampleVar (specWindow (ffill xs) i) : ℚ) : ℝ))) ∧
    (countSome ((ffill xs).take (i + 1)) < 50 →
      rollingVar50 (ffill xs) i = none ∧
        ∀ r ∈ dropna (featuredFrame t (ffill xs)), r.idx ≠ i) := by
  constructor
  · intro h
    rw [rollingVar50_avail xs i hi h, Option.map_some']
  · intro h
    exact ⟨rollingVar50_unavail xs i hi h,
      not_mem_dropna_of_var_none t (ffill xs) i (rollingVar50_unavail xs i hi h)⟩

/-- Witness for C2 on the same 60-point series at index 49. -/
theorem c2_volatility_sample_std_witness :
    49 < (ffill ((List.range 60).map (fun n => some (n : ℚ)))).length ∧
    (rollingVar50 (ffill ((List.range 60).map (fun n => some (n : ℚ)))) 49).map
        (fun q : ℚ => Real.sqrt (q : ℝ)) =
      some (Real.sqrt
        ((specSampleVar (specWindow (ffill ((List.range 60).map (fun n => some (n : ℚ)))) 49) : ℚ) : ℝ)) :=
  ⟨by decide, (c2_volatility_sample_std "AAPL" _ 49 (by decide)).1 (by decide)⟩

/-- **C4**: the Cleaner is the identity on gap-free input; in general each
cleaned entry is exactly the most recent prior non-missing observation
(forward-fill only — no interpolation, no back-fill), and entries before the
first real observation stay undefined and their rows are dropped from the
output. -/
theorem c4_cleaner_forward_fill_only (t : String) (xs : List (Option ℚ)) :
    ((∀ v ∈ xs, v.isSome) → ffill xs = xs) ∧
    (∀ i, i < xs.length → (ffill xs).getD i none = lastObserved (xs.take (i + 1))) ∧
    (∀ i, i < xs.length → (ffill xs).getD i none = none →
      ∀ r ∈ dropna (featuredFrame t (ffill xs)), r.idx ≠ i) :=
  ⟨ffill_all_some xs,
   fun i hi => ffill_getD xs i hi,
   fun i _ hnone => not_mem_dropna_of_close_none t (ffill xs) i hnone⟩

/-- Witness for C4: a gap-free series, a forward-filled gap, and a leading
gap whose row is dropped. -/
theorem c4_cleaner_forward_fill_only_witness :
    (ffill [some (3 : ℚ), some 4, some 5] = [some 3, some 4, some 5]) ∧
    ((ffill [none, some (7 : ℚ), none, none]).getD 3 none =
      lastObserved ([none, some (7 : ℚ), none, none].take 4)) ∧
    (∀ r ∈ dropna (featuredFrame "AAPL" (ffill [none, some (7 : ℚ), none, none])),
      r.idx ≠ 0) :=
  ⟨(c4_cleaner_forward_fill_only "AAPL" _).1 (by decide),
   (c4_cleaner_forward_fill_only "AAPL" _).2.1 3 (by decide),
   (c4_cleaner_forward_fill_only "AAPL" _).2.2 0 (by decide) (by decide)⟩

lemma processTicker_none_of_lookup_none (raw : RawSeriesTable) (t : String)
    (h : raw.lookup t = none) : processTicker raw t = none := by
  simp [processTicker, h]

lemma processTicker_none_of_close_none (raw : RawSeriesTable) (t : String)
    (f : TickerFrame) (hlk : raw.lookup t = some f) (hc : f.close = none) :
    processTicker raw t = none := by
  simp [processTicker, hlk, hc]

lemma processTicker_isSome_of_close (raw : RawSeriesTable) (t : String)
    (f : TickerFrame) (c : List (Option ℚ)) (hlk : raw.lookup t = some f)
    (hc : f.close = some c) : (processTicker raw t).isSome := by
  simp [processTicker, hlk, hc]

/-- A fresh key at the head of the table hides nothing: lookups of other
tickers are unchanged. -/
lemma processTicker_cons_ne (raw : RawSeriesTable) (t s : String)
    (f : TickerFrame) (hne : s ≠ t) :
    processTicker ((t, f) :: raw) s = processTicker raw s := by
  have hlk : List.lookup s ((t, f) :: raw) = List.lookup s raw := by
    rw [List.lookup_cons]
    simp [beq_eq_false_iff_ne.mpr hne]
  rw [processTicker, processTicker, hlk]

/-- A ticker whose processing failed contributes no consolidated rows. -/
lemma no_rows_of_processTicker_none (tickers : List String)
    (raw : RawSeriesTable) (t : String)
    (hnone : processTicker raw t = none) :
    ∀ r ∈ (transform_data tickers raw).1, r.ticker ≠ t := by
  intro r hr hrt
  obtain ⟨t', ht', rows, hp, hrr⟩ := (mem_transform_data tickers raw r).mp hr
  have htag := (processTicker_rows raw t' rows hp r hrr).1
  rw [hrt] at htag
  rw [← htag] at hp
  rw [hnone] at hp
  cases hp

/-- A requested ticker whose processing failed appears in the skip log. -/
lemma mem_skips_of_processTicker_none (tickers : List String)
    (raw : RawSeriesTable) (t : String) (ht : t ∈ tickers)
    (hnone : processTicker raw t = none) :
    t ∈ (transform_data tickers raw).2 := by
  rw [transform_data_skips]
  exact List.mem_filter.mpr ⟨ht, by rw [hnone]; rfl⟩

/-- Inserting a frame for a previously absent ticker leaves every other
ticker's contribution unchanged. -/
lemma transform_data_insert_absent (tickers : List String)
    (raw : RawSeriesTable) (t : String) (habs : raw.lookup t = none)
    (f : TickerFrame) :
    ((transform_data tickers ((t, f) :: raw)).1.filter
        (fun r => r.ticker != t)) = (transform_data tickers raw).1 := by
  rw [transform_data_rows, transform_data_rows]
  induction tickers with
  | nil => rfl
  | cons s rest ih =>
    rw [List.flatMap_cons, List.flatMap_cons, List.filter_append, ih]
    congr 1
    by_cases hst : s = t
    · subst hst
      rw [processTicker_none_of_lookup_none raw s habs]
      cases hp : processTicker ((s, f) :: raw) s with
      | none => rfl
      | some rows =>
        simp only [Option.getD_some, Option.getD_none]
        rw [List.filter_eq_nil_iff]
        intro r hr
        have := (processTicker_rows _ s rows hp r hr).1
        simp [this]
    · rw [processTicker_cons_ne raw t s f hst]
      cases hp : processTicker raw s with
      | none => rfl
      | some rows =>
        simp only [Option.getD_some]
        rw [List.filter_eq_self]
        intro r hr
        have := (processTicker_rows _ s rows hp r hr).1
        simp [this, hst]

/-- **C5**: a requested ticker absent from the provider table is skipped —
the skip event carries the ticker identifier and the "No data found" reason —
it contributes zero rows, every other ticker is processed exactly as it
would be with the absent ticker present, and no pipeline-level failure
results. -/
theorem c5_absent_ticker_skipped (tickers : List String) (raw : RawSeriesTable)
    (t : String) (ht : t ∈ tickers) (habs : raw.lookup t = none) :
    t ∈ (transform_data tickers raw).2 ∧
    (∃ pre post, skip_message t = pre ++ "No data found for " ++ t ++ post) ∧
    (∀ r ∈ (transform_data tickers raw).1, r.ticker ≠ t) ∧
    (∀ f : TickerFrame,
      ((transform_data tickers ((t, f) :: raw)).1.filter
        (fun r => r.ticker != t)) = (transform_data tickers raw).1) :=
  ⟨mem_skips_of_processTicker_none tickers raw t ht
     (processTicker_none_of_lookup_none raw t habs),
   ⟨"Integrity Check Failed: ", ". Skipping...", rfl⟩,
   no_rows_of_processTicker_none tickers raw t
     (processTicker_none_of_lookup_none raw t habs),
   fun f => transform_data_insert_absent tickers raw t habs f⟩

/-- Witness for C5: a 2-ticker request where "B" is absent. -/
theorem c5_absent_ticker_skipped_witness :
    "B" ∈ (transform_data ["A", "B"]
        [("A", ⟨some (List.replicate 50 (some (1 : ℚ)))⟩)]).2 ∧
    (∃ pre post, skip_message "B" = pre ++ "No data found for " ++ "B" ++ post) ∧
    (∀ r ∈ (transform_data ["A", "B"]
        [("A", ⟨some (List.replicate 50 (some (1 : ℚ)))⟩)]).1, r.ticker ≠ "B") ∧
    (∀ f : TickerFrame,
      ((transform_data ["A", "B"]
          (("B", f) :: [("A", ⟨some (List.replicate 50 (some (1 : ℚ)))⟩)])).1.filter
        (fun r => r.ticker != "B")) =
      (transform_data ["A", "B"]
        [("A", ⟨some (List.replicate 50 (some (1 : ℚ)))⟩)]).1) :=
  c5_absent_ticker_skipped ["A", "B"]
    [("A", ⟨some (List.replicate 50 (some (1 : ℚ)))⟩)] "B" (by decide) (by decide)

/-- **C7**: the consolidated table is invariant, as a multiset of rows (and
hence as a set), under any permutation of the ticker-processing order. -/
theorem c7_consolidation_perm_invariant (tickers₁ tickers₂ : List String)
    (raw : RawSeriesTable) (hperm : tickers₁.Perm tickers₂) :
    ((transform_data tickers₁ raw).1).Perm ((transform_data tickers₂ raw).1) := by
  rw [transform_data_rows, transform_data_rows]
  exact hperm.flatMap_right _

/-- Witness for C7: swapping a 2-ticker processing order. -/
theorem c7_consolidation_perm_invariant_witness :
    ((transform_data ["A", "B"]
        [("A", ⟨some (List.replicate 50 (some (2 : ℚ)))⟩)]).1).Perm
      ((transform_data ["B", "A"]
        [("A", ⟨some (List.replicate 50 (some (2 : ℚ)))⟩)]).1) :=
  c7_consolidation_perm_invariant ["A", "B"] ["B", "A"]
    [("A", ⟨some (List.replicate 50 (some (2 : ℚ)))⟩)] (by decide)

/-- **C9**: every consolidated row's ticker is drawn from the requested
universe and none of its Close, MA50 or Volatility entries is undefined —
for every possible provider table. -/
theorem c9_row_invariant (tickers : List String) (raw : RawSeriesTable)
    (r : FeaturedRow) (hr : r ∈ (transform_data tickers raw).1) :
    r.ticker ∈ tickers ∧ r.close.isSome ∧ r.ma50.isSome ∧ r.var.isSome := by
  obtain ⟨t, ht, rows, hp, hrr⟩ := (mem_transform_data tickers raw r).mp hr
  obtain ⟨hticker, hcomp⟩ := processTicker_rows raw t rows hp r hrr
  rw [rowComplete] at hcomp
  simp only [Bool.and_eq_true] at hcomp
  exact ⟨hticker ▸ ht, hcomp.1.1, hcomp.1.2, hcomp.2⟩

/-- Witness for C9: the surviving row of a 50-point constant series (named
as the head of the consolidated table; comparing field values directly is
not needed). -/
theorem c9_row_invariant_witness :
    ((transform_data ["A"] [("A", ⟨some (List.replicate 50 (some (1 : ℚ)))⟩)]).1.getD 0
        ⟨"Z", 0, none, none, none⟩).ticker ∈ ["A"] ∧
    ((transform_data ["A"] [("A", ⟨some (List.replicate 50 (some (1 : ℚ)))⟩)]).1.getD 0
        ⟨"Z", 0, none, none, none⟩).close.isSome ∧
    ((transform_data ["A"] [("A", ⟨some (List.replicate 50 (some (1 : ℚ)))⟩)]).1.getD 0
        ⟨"Z", 0, none, none, none⟩).ma50.isSome ∧
    ((transform_data ["A"] [("A", ⟨some (List.replicate 50 (some (1 : ℚ)))⟩)]).1.getD 0
        ⟨"Z", 0, none, none, none⟩).var.isSome :=
  c9_row_invariant ["A"] [("A", ⟨some (List.replicate 50 (some (1 : ℚ)))⟩)]
    ((transform_data ["A"] [("A", ⟨some (List.replicate 50 (some (1 : ℚ)))⟩)]).1.getD 0
        ⟨"Z", 0, none, none, none⟩)
    (by
      have h0 : 0 <
          ((transform_data ["A"] [("A", ⟨some (List.replicate 50 (some (1 : ℚ)))⟩)]).1).length := by
        decide
      rw [List.getD_eq_getElem _ _ h0]
      exact List.getElem_mem h0)

/-- **C10**: a ticker present in the table but whose frame lacks a Close
column is handled exactly like an absent ticker — skipped, zero rows, not
propagated — and this lookup-failure class is the only error the processor
recovers from: any ticker with a frame and a Close column is processed. -/
theorem c10_missing_close_like_absent (tickers : List String)
    (raw : RawSeriesTable) (t : String) (f : TickerFrame) (ht : t ∈ tickers)
    (hlk : raw.lookup t = some f) (hc : f.close = none) :
    processTicker raw t = none ∧
    t ∈ (transform_data tickers raw).2 ∧
    (∀ r ∈ (transform_data tickers raw).1, r.ticker ≠ t) ∧
    (∀ (raw' : RawSeriesTable) (t' : String) (fr : TickerFrame)
       (c : List (Option ℚ)), raw'.lookup t' = some fr → fr.close = some c →
      (processTicker raw' t').isSome) :=
  ⟨processTicker_none_of_close_none raw t f hlk hc,
   mem_skips_of_processTicker_none tickers raw t ht
     (processTicker_none_of_close_none raw t f hlk hc),
   no_rows_of_processTicker_none tickers raw t
     (processTicker_none_of_close_none raw t f hlk hc),
   fun raw' t' fr c hlk' hc' => processTicker_isSome_of_close raw' t' fr c hlk' hc'⟩

/-- Witness for C10: ticker "C" is present but has no Close column. -/
theorem c10_missing_close_like_absent_witness :
    processTicker [("C", ⟨none⟩)] "C" = none ∧
    "C" ∈ (transform_data ["C"] [("C", ⟨none⟩)]).2 ∧
    (∀ r ∈ (transform_data ["C"] [("C", ⟨none⟩)]).1, r.ticker ≠ "C") ∧
    (∀ (raw' : RawSeriesTable) (t' : String) (fr : TickerFrame)
       (c : List (Option ℚ)), raw'.lookup t' = some fr → fr.close = some c →
      (processTicker raw' t').isSome) :=
  c10_missing_close_like_absent ["C"] [("C", ⟨none⟩)] "C" ⟨none⟩
    (by decide) (by decide) (by decide)

/-- **C6**: if the consolidated table is empty (every ticker skipped or
filtered out), neither the SQLite write nor the chart render is executed —
no empty table is written. -/
theorem c6_empty_consolidation_no_sinks (tickers : List String)
    (fetch : Option RawSeriesTable)
    (h : (runPipeline tickers fetch).2 = []) :
    (runPipeline tickers fetch).1.persisted = false ∧
    (runPipeline tickers fetch).1.charted = false := by
  by_cases hb : (extract_data fetch).1.isEmpty
  · constructor <;> simp [runPipeline, hb]
  · by_cases hr : (transform_data tickers (extract_data fetch).1).1.isEmpty
    · constructor <;> simp [runPipeline, hb, hr]
    · exfalso
      have h2 : (runPipeline tickers fetch).2 =
          (transform_data tickers (extract_data fetch).1).1 := by
        simp [runPipeline, hb, hr]
      rw [h2] at h
      rw [List.isEmpty_iff] at hr
      exact hr h

/-- Witness for C6: a non-empty provider table whose only ticker lacks a
Close column, so the consolidated table is empty and the sinks are skipped. -/
theorem c6_empty_consolidation_no_sinks_witness :
    (runPipeline ["A"] (some [("A", ⟨none⟩)])).2 = [] ∧
    (runPipeline ["A"] (some [("A", ⟨none⟩)])).1.persisted = false ∧
    (runPipeline ["A"] (some [("A", ⟨none⟩)])).1.charted = false :=
  ⟨by decide,
   (c6_empty_consolidation_no_sinks ["A"] (some [("A", ⟨none⟩)]) (by decide)).1,
   (c6_empty_consolidation_no_sinks ["A"] (some [("A", ⟨none⟩)]) (by decide)).2⟩

/-- **C8**: when the provider call fails outright, no transformation is
attempted (hence neither persistence nor charting), the failure is logged,
and the run still reaches its terminal status message. -/
theorem c8_extraction_failure_halts_gracefully (tickers : List String) :
    (runPipeline tickers none).1.apiFailureLogged = true ∧
    (runPipeline tickers none).1.transformRan = false ∧
    (runPipeline tickers none).1.persisted = false ∧
    (runPipeline tickers none).1.charted = false ∧
    (runPipeline tickers none).1.completed = true ∧
    (runPipeline tickers none).2 = [] :=
  ⟨rfl, rfl, rfl, rfl, rfl, rfl⟩

/-- **C3**: end-to-end on a 2-ticker universe — ticker "A" carries a clean
100-point linear ramp (100.0, 100.1, …), ticker "B" is absent — the
consolidated table has exactly 51 rows (indices 49–99), all tagged "A", and
the skip report is exactly ["B"]; in general a series with exactly 49 usable
points contributes zero rows and one with exactly 50 contributes exactly
one. -/
theorem c3_end_to_end_two_ticker :
    ((transform_data ["A", "B"]
        [("A", ⟨some ((List.range 100).map
          (fun n => some ((1000 + (n : ℚ)) / 10)))⟩)]).1.length = 51 ∧
     (∀ r ∈ (transform_data ["A", "B"]
        [("A", ⟨some ((List.range 100).map
          (fun n => some ((1000 + (n : ℚ)) / 10)))⟩)]).1, r.ticker = "A") ∧
     (transform_data ["A", "B"]
        [("A", ⟨some ((List.range 100).map
          (fun n => some ((1000 + (n : ℚ)) / 10)))⟩)]).1.map
        (fun r => r.idx) = List.range' 49 51 ∧
     (transform_data ["A", "B"]
        [("A", ⟨some ((List.range 100).map
          (fun n => some ((1000 + (n : ℚ)) / 10)))⟩)]).2 = ["B"]) ∧
    (∀ (t : String) (xs : List (Option ℚ)), countSome (ffill xs) = 49 →
      dropna (featuredFrame t (ffill xs)) = []) ∧
    (∀ (t : String) (xs : List (Option ℚ)), countSome (ffill xs) = 50 →
      (dropna (featuredFrame t (ffill xs))).length = 1) :=
  ⟨by decide,
   fun t xs h => dropna_featured_of_49 t xs h,
   fun t xs h => dropna_featured_of_50 t xs h⟩

/-- Witness for C3's universal parts: constant series of 49 and of 50
points. -/
theorem c3_end_to_end_two_ticker_witness :
    dropna (featuredFrame "X" (ffill (List.replicate 49 (some (1 : ℚ))))) = [] ∧
    (dropna (featuredFrame "X" (ffill (List.replicate 50 (some (1 : ℚ)))))).length = 1 :=
  ⟨c3_end_to_end_two_ticker.2.1 "X" (List.replicate 49 (some 1)) (by decide),
   c3_end_to_end_two_ticker.2.2 "X" (List.replicate 50 (some 1)) (by decide)⟩
